import Mathlib

/-!
# Sprint Tracker — shallow embedding and verification

This file embeds the task/board data model and the operations of the
sprint-tracker CLI (`src/cli.js` and the GitHub sync module) as executable
Lean definitions, and proves the frozen claims about them.

Modelling conventions:
* JavaScript strings are modelled as `List Char` (`Str`).  String-library
  operations used by the source (`toLowerCase`, `toUpperCase`, `startsWith`,
  `replace` with a string pattern = first occurrence only, `padStart`,
  `substring(0, n)`, `repeat`, `split`-free date handling) are defined
  recursively below with JS semantics.
* JavaScript numbers holding task points / issue numbers are modelled as
  `Int`; percentages fed to `Math.round` are modelled as `ℚ` with
  `jsRound q = ⌊q + 1/2⌋` (JS `Math.round` rounds half toward +∞).
* `new Date().toISOString()` and its date part are passed in as a `Clock`
  value (`nowIso`, `today`).
* Fallible commands return `Except Str SprintData`; an `.error` result
  models the source's early `return` after printing an error message:
  no mutation has happened and `saveData` was not called.
* Subprocess interaction of the GitHub sync module is modelled by a
  `GhEnv` record of oracles: `ghPresent` is the result of `checkGhCli()`,
  `repoInfo` the result of `getRepoInfo()`, `issueState n` the result of
  `getIssueStatus(n, repoInfo)` (which catches internally and returns
  `null` = `none` on failure), and `createIssue t` the result of
  `createIssue(task, repoInfo)` (`.error msg` models a thrown error whose
  message is `msg`).
-/

namespace SprintTracker

abbrev Str := List Char

/-- JS `c.toLowerCase()` on one character (ASCII range, which is the only
range exercised by task ids and statuses). -/
def lowerChar (c : Char) : Char :=
  if 65 ≤ c.toNat ∧ c.toNat ≤ 90 then Char.ofNat (c.toNat + 32) else c

/-- JS `c.toUpperCase()` on one character (ASCII range). -/
def upperChar (c : Char) : Char :=
  if 97 ≤ c.toNat ∧ c.toNat ≤ 122 then Char.ofNat (c.toNat - 32) else c

/-- JS `s.toLowerCase()`. -/
def jsToLower (s : Str) : Str := s.map lowerChar

/-- JS `s.toUpperCase()`. -/
def jsToUpper (s : Str) : Str := s.map upperChar

/-- JS `s.startsWith(pat)`. -/
def strStartsWith : Str → Str → Bool
  | _, [] => true
  | [], _ :: _ => false
  | c :: s, p :: ps => c == p && strStartsWith s ps

/-- JS `s.replace(pat, repl)` with a *string* pattern: replaces only the
first occurrence; `s.replace('', repl)` prepends `repl`. -/
def replaceFirst (pat repl : Str) : Str → Str
  | [] => if strStartsWith [] pat then repl else []
  | c :: rest =>
    if strStartsWith (c :: rest) pat then repl ++ (c :: rest).drop pat.length
    else c :: replaceFirst pat repl rest

/-- JS `s.padStart(len, c)`. -/
def padStart (s : Str) (len : Nat) (c : Char) : Str :=
  List.replicate (len - s.length) c ++ s

/-- `padRight` from `cli.js` lines 526-529:
`str.length >= len ? str.substring(0, len) : str + ' '.repeat(len - str.length)`. -/
def padRight (s : Str) (len : Nat) : Str :=
  if s.length ≥ len then s.take len else s ++ List.replicate (len - s.length) ' '

/-- Digit character for `d < 10` (code point `48 + d`). -/
def digitChar (d : Nat) : Char := Char.ofNat (48 + d)

def isDigitChar (c : Char) : Bool := 48 ≤ c.toNat && c.toNat ≤ 57

/-- JS whitespace characters skipped by `parseInt` (the ones with small code
points; the exotic Unicode spaces never arise in this data). -/
def isSpaceChar (c : Char) : Bool :=
  c.toNat == 32 || c.toNat == 9 || c.toNat == 10 || c.toNat == 11 ||
  c.toNat == 12 || c.toNat == 13

def digitVal (c : Char) : Nat := c.toNat - 48

/-- Numeric value of a digit string, most significant digit first. -/
def digitsVal (ds : Str) : Nat := ds.foldl (fun a c => 10 * a + digitVal c) 0

/-- Leading digit run of `s`, as a number; `none` when `s` does not start
with a digit (JS `NaN`). -/
def parseDigits (s : Str) : Option Nat :=
  if (s.takeWhile isDigitChar).isEmpty then none
  else some (digitsVal (s.takeWhile isDigitChar))

/-- JS `parseInt(s)` (radix 10): skip leading whitespace, optional sign,
then the leading digit run; `none` models `NaN`.  (The automatic `0x` hex
prefix of JS `parseInt` is not modelled; no input in this program carries
it.) -/
def jsParseInt (s : Str) : Option Int :=
  match s.dropWhile isSpaceChar with
  | [] => none
  | c :: rest =>
    if c = '-' then
      match parseDigits rest with
      | none => none
      | some n => some (-(n : Int))
    else if c = '+' then
      match parseDigits rest with
      | none => none
      | some n => some ((n : Int))
    else
      match parseDigits (c :: rest) with
      | none => none
      | some n => some ((n : Int))

/-- JS `parseInt(s) || 0`: `NaN` becomes `0` (and `0` stays `0`). -/
def jsParseIntOrZero (s : Str) : Int := (jsParseInt s).getD 0

/-- Decimal rendering of `n`, most significant digit first — recursive
reference version used in proofs. -/
def natToDigitsRec (n : Nat) : List Char :=
  if _h : n < 10 then [digitChar n]
  else natToDigitsRec (n / 10) ++ [digitChar (n % 10)]
  decreasing_by exact Nat.div_lt_self (by omega) (by omega)

/-- Fuel-driven, kernel-computable form of `natToDigitsRec`. -/
def natToDigitsAux : Nat → Nat → List Char → List Char
  | 0, _, acc => acc
  | fuel + 1, n, acc =>
    if n < 10 then digitChar n :: acc
    else natToDigitsAux fuel (n / 10) (digitChar (n % 10) :: acc)

/-- Decimal rendering of `n` (JS `String(n)` for a non-negative integer). -/
def natToDigits (n : Nat) : List Char := natToDigitsAux (n + 1) n []

/-- JS `String(i)` for an integer. -/
def intToString (i : Int) : Str :=
  if i < 0 then '-' :: natToDigits (-i).toNat else natToDigits i.toNat

/-- JS `Math.round` on an exact rational: `⌊q + 1/2⌋` (half rounds toward
+∞, matching JS). -/
def jsRound (q : ℚ) : Int := ⌊q + 1/2⌋

/-- JS `opt || dflt` for an optional string: `undefined` and `''` are falsy. -/
def jsOrStr (o : Option Str) (dflt : Str) : Str :=
  match o with
  | some s => if s.isEmpty then dflt else s
  | none => dflt

/-! ## Data model (§3 of the spec; `sprint-data.json`) -/

structure Capacity where
  totalHours : Int
  committed : Int
  buffer : Int
deriving Repr, DecidableEq

structure Task where
  id : Str
  title : Str
  type : Str
  status : Str
  priority : Str
  points : Int
  sprint : Str
  owner : Option Str
  branch : Option Str
  worktree : Option Str
  notes : Option Str
  linkedTD : Option Str
  acceptanceCriteria : List Str
  blockers : List Str
  createdAt : Str
  completedAt : Option Str
  githubIssue : Option Int
  githubUrl : Option Str
deriving Repr, DecidableEq

structure TechDebt where
  id : Str
  status : Str
  progress : Option ℚ
  linkedTask : Option Str
deriving Repr, DecidableEq

structure SprintData where
  project : Str
  version : Option Str
  currentSprint : Str
  sprintStart : Str
  sprintEnd : Str
  capacity : Capacity
  tasks : List Task
  technicalDebt : List TechDebt
  lastUpdated : Str
deriving Repr, DecidableEq

/-- `.sprint-tracker.json` configuration; `none` fields model both an
absent key and an absent config file. -/
structure Config where
  taskPrefix : Option Str
  columns : Option (List Str)
deriving Repr, DecidableEq

/-- The wall clock of one invocation: `today` is
`new Date().toISOString().split('T')[0]`, `nowIso` the full ISO string. -/
structure Clock where
  today : Str
  nowIso : Str
deriving Repr, DecidableEq

def defaultColumns : List Str :=
  [("backlog".toList), ("ready".toList), ("in_progress".toList),
   ("review".toList), ("done".toList)]

/-- `saveData` (`cli.js` lines 104-108): stamps `lastUpdated` and rewrites
the whole document.  The file write itself is the identity on the in-memory
document. -/
def saveData (nowIso : Str) (d : SprintData) : SprintData :=
  { d with lastUpdated := nowIso }

/-- JS `!task.completedAt`: `undefined` and the empty string are falsy. -/
def completedAtUnset (t : Task) : Bool :=
  match t.completedAt with
  | none => true
  | some s => s.isEmpty

/-- The predicate of `data.tasks.find(t => t.id.toLowerCase() === taskId.toLowerCase())`. -/
def idMatch (taskId : Str) (t : Task) : Bool :=
  jsToLower t.id == jsToLower taskId

/-- `find` + in-place mutation of the found object: replaces the first
element satisfying `p` by its image under `f`; `none` when no element
matches. -/
def mutateFirst (p : Task → Bool) (f : Task → Task) : List Task → Option (List Task)
  | [] => none
  | t :: ts => if p t then some (f t :: ts) else (mutateFirst p f ts).map (t :: ·)

/-- The mutation applied by `cmdMove` to the found task (`cli.js` lines
360-365): set `status`; stamp `completedAt` with today's date when the
target is `done` and `completedAt` is falsy. -/
def moveApply (clock : Clock) (newStatus : Str) (t : Task) : Task :=
  { t with
    status := newStatus
    completedAt :=
      if newStatus == ("done".toList) && completedAtUnset t then some clock.today
      else t.completedAt }

/-- `cmdMove` (`cli.js` lines 346-369).  `.error` models the early return
after `console.error`: no mutation, no save. -/
def cmdMove (config : Config) (clock : Clock) (data : SprintData)
    (taskId newStatus : Str) : Except Str SprintData :=
  -- `validStatuses = config?.columns || [...default five...]` (line 347)
  if ¬ ((config.columns.getD defaultColumns).contains newStatus) then
    .error ("Invalid status".toList)
  else
    match mutateFirst (idMatch taskId) (moveApply clock newStatus) data.tasks with
    | none => .error ("Task not found".toList)
    | some ts => .ok (saveData clock.nowIso { data with tasks := ts })

/-! ## `cmdAdd` (`cli.js` lines 311-344) -/

/-- JS `args.join(' ')`. -/
def joinSpace : List Str → Str
  | [] => []
  | [x] => x
  | x :: xs => x ++ ' ' :: joinSpace xs

/-- The numeric suffix the ID generator reads off one task:
`parseInt(t.id.replace(prefix + '-', '')) || 0` (`cli.js` line 322). -/
def suffixValue (pfx : Str) (t : Task) : Int :=
  jsParseIntOrZero (replaceFirst (pfx ++ ['-']) [] t.id)

/-- `maxNum` of `cmdAdd` (`cli.js` lines 320-323): maximum numeric suffix
over tasks whose id starts with the prefix, floored at 0. -/
def maxNumOf (pfx : Str) (tasks : List Task) : Int :=
  ((tasks.filter (fun t => strStartsWith t.id pfx)).map (suffixValue pfx)).foldl max 0

/-- The suffix the next created task will get under prefix `pfx`. -/
def nextSuffix (pfx : Str) (tasks : List Task) : Int := maxNumOf pfx tasks + 1

/-- `` `${prefix}-${String(maxNum + 1).padStart(3, '0')}` `` (`cli.js` line 325). -/
def mkTaskId (pfx : Str) (n : Int) : Str :=
  pfx ++ '-' :: padStart (intToString n) 3 '0'

/-- The upper-cased task prefix: `(config?.taskPrefix || 'TASK').toUpperCase()`. -/
def taskPrefixOf (config : Config) : Str :=
  jsToUpper (jsOrStr config.taskPrefix ("TASK".toList))

/-- The task object literal of `cmdAdd` (`cli.js` lines 327-337); fields the
literal does not mention are absent (`none` / `[]`). -/
def newTaskOf (clock : Clock) (cur : Str) (newId title : Str) : Task :=
  { id := newId, title := title, type := ("feature".toList),
    status := ("backlog".toList), priority := ("medium".toList), points := 0,
    sprint := cur, owner := none, branch := none, worktree := none,
    notes := none, linkedTD := none, acceptanceCriteria := [], blockers := [],
    createdAt := clock.today, completedAt := none, githubIssue := none,
    githubUrl := none }

/-- `cmdAdd` (`cli.js` lines 311-344): `title = args.join(' ')`, empty title
is a usage error with no mutation and no save; otherwise the new task id is
`` `${prefix}-${String(maxNum + 1).padStart(3, '0')}` `` and the task is
appended and the document saved. -/
def cmdAdd (config : Config) (clock : Clock) (data : SprintData)
    (args : List Str) : Except Str SprintData :=
  if (joinSpace args).isEmpty then .error ("Usage: sprint add \x22Task title\x22".toList)
  else
    .ok (saveData clock.nowIso
      { data with tasks := data.tasks ++
          [newTaskOf clock data.currentSprint
            (mkTaskId (taskPrefixOf config) (nextSuffix (taskPrefixOf config) data.tasks))
            (joinSpace args)] })

/-! ## Board rendering and progress (`cmdBoard`, `cli.js` lines 152-210) -/

/-- The configured column list: `config?.columns || [...default five...]`. -/
def boardColumns (config : Config) : List Str := config.columns.getD defaultColumns

/-- Active task subset: `data.tasks.filter(t => t.sprint === data.currentSprint)`. -/
def sprintTasks (d : SprintData) : List Task :=
  d.tasks.filter (fun t => t.sprint == d.currentSprint)

/-- `donePoints` (`cli.js` line 196); `(t.points || 0)` is the identity on a
number-valued `points` field. -/
def donePoints (d : SprintData) : Int :=
  ((sprintTasks d).filter (fun t => t.status == ("done".toList))).foldl
    (fun sum t => sum + t.points) 0

/-- `totalPoints` (`cli.js` line 197). -/
def totalPoints (d : SprintData) : Int :=
  (sprintTasks d).foldl (fun sum t => sum + t.points) 0

/-- `progress` (`cli.js` line 198):
`totalPoints > 0 ? Math.round(donePoints / totalPoints * 100) : 0`. -/
def boardProgress (d : SprintData) : Int :=
  if totalPoints d > 0 then jsRound ((donePoints d : ℚ) / (totalPoints d : ℚ) * 100)
  else 0

/-- `colWidth` (`cli.js` line 172): `Math.floor(78 / columns.length)`. -/
def boardColWidth (columns : List Str) : Nat := 78 / columns.length

/-- `priorityIcons[task.priority] || '⚪'` (`cli.js` lines 47-52, 184). -/
def priorityIcon (p : Str) : Str :=
  if p == ("critical".toList) then ['🔴']
  else if p == ("high".toList) then ['🟠']
  else if p == ("medium".toList) then ['🟡']
  else if p == ("low".toList) then ['🟢']
  else ['⚪']

/-- Cell text before padding: `` `${icon} ${task.id}` `` (`cli.js` line 185). -/
def taskCellText (t : Task) : Str := priorityIcon t.priority ++ ' ' :: t.id

/-- A rendered task cell (`cli.js` line 186), measured without the
zero-width ANSI color codes that surround it. -/
def boardTaskCell (w : Nat) (t : Task) : Str := padRight (taskCellText t) w

/-- A rendered header cell:
`padRight(col.toUpperCase().replace('_', ' '), colWidth)` (`cli.js` line 173). -/
def boardHeaderCell (w : Nat) (col : Str) : Str :=
  padRight (replaceFirst ['_'] [' '] (jsToUpper col)) w

/-- JS `parts.join(sep)`. -/
def joinSep (sep : Str) : List Str → Str
  | [] => []
  | [x] => x
  | x :: xs => x ++ sep ++ joinSep sep xs

/-- The header row of the grid (`cli.js` line 173): cells joined by `'│'`. -/
def boardHeaderRow (columns : List Str) : Str :=
  joinSep ['│'] (columns.map (boardHeaderCell (boardColWidth columns)))

/-! ## Technical-debt view (`cmdDebt`, `cli.js` lines 395-416) -/

/-- `createProgressBar` (`cli.js` lines 531-534).  `none` models the
`RangeError` thrown by `'█'.repeat(filled)` or `'░'.repeat(width - filled)`
when the repeat count is negative. -/
def createProgressBar (percent : ℚ) (width : Nat) : Option Str :=
  let filled := jsRound (percent / 100 * width)
  if filled < 0 ∨ (width : Int) < filled then none
  else some ('[' :: (List.replicate filled.toNat '█' ++
    List.replicate ((width : Int) - filled).toNat '░' ++ [(']')]))

/-- The bars `cmdDebt` renders, in `forEach` order; a throw aborts the whole
view (`none`) and renders nothing further. -/
def debtBarsLoop : List TechDebt → Option (List Str)
  | [] => some []
  | td :: tds =>
    match createProgressBar (td.progress.getD 0) 15 with
    | none => none
    | some bar => (debtBarsLoop tds).map (bar :: ·)

/-- The bars `cmdDebt` renders (`cli.js` line 409):
`createProgressBar(td.progress || 0, 15)` for each tech-debt item; `none`
when any call throws. -/
def cmdDebtBars (d : SprintData) : Option (List Str) :=
  debtBarsLoop d.technicalDebt

/-! ## GitHub sync module (`github-sync.js`, `src/unnamed/part_000`) -/

structure RepoInfo where
  owner : Str
  repo : Str
deriving Repr, DecidableEq

/-- Result shape of `getIssueStatus`: `--json state,title`. -/
structure IssueView where
  state : Str
  title : Str
deriving Repr, DecidableEq

/-- Result of `createIssue`: `{ url, number }`. -/
structure IssueRef where
  url : Str
  number : Int
deriving Repr, DecidableEq

/-- Oracles for the subprocess calls of one sync run.  `issueState` and
`createIssue` are already specialized to the run's `repoInfo`, mirroring how
the source passes `repoInfo` to every helper. -/
structure GhEnv where
  ghPresent : Bool
  repoInfo : Option RepoInfo
  issueState : Int → Option IssueView
  createIssue : Task → Except Str IssueRef

structure CreatedEntry where
  id : Str
  issue : Int
  url : Str
deriving Repr, DecidableEq

structure UpdatedEntry where
  id : Str
  action : Str
deriving Repr, DecidableEq

structure ErrorEntry where
  id : Str
  error : Str
deriving Repr, DecidableEq

structure PushResults where
  created : List CreatedEntry
  updated : List UpdatedEntry
  errors : List ErrorEntry
deriving Repr, DecidableEq

/-- What one iteration of the push loop contributes to `results`. -/
inductive PushDelta where
  | noop
  | created (e : CreatedEntry)
  | updated (e : UpdatedEntry)
  | err (e : ErrorEntry)
deriving Repr, DecidableEq

structure PushOptions where
  sprintOnly : Bool
  status : Option Str
deriving Repr, DecidableEq

/-- The subset filter of `syncToGitHub` (`part_000` lines 196-202). -/
def pushFilter (opts : PushOptions) (cur : Str) (t : Task) : Bool :=
  (!opts.sprintOnly || t.sprint == cur) &&
  (match opts.status with
   | none => true
   | some s => t.status == s)

/-- One iteration of the push loop body (`part_000` lines 204-255).

The linked branch cannot throw: `getIssueStatus`, `closeIssue` and
`reopenIssue` catch internally; so only `createIssue` reaches the `catch`,
which records exactly one error entry and leaves the task unmutated (the
task is only written after `createIssue` returns). -/
def pushStep (env : GhEnv) (t : Task) : Task × PushDelta :=
  match t.githubIssue with
  | some n =>
    match env.issueState n with
    | none => (t, .noop)
    | some st =>
      let isIssueClosed := st.state == ("CLOSED".toList)
      let isTaskDone := t.status == ("done".toList)
      if isTaskDone && !isIssueClosed then (t, .updated ⟨t.id, ("closed".toList)⟩)
      else if !isTaskDone && isIssueClosed then (t, .updated ⟨t.id, ("reopened".toList)⟩)
      else (t, .noop)
  | none =>
    match env.createIssue t with
    | .error msg => (t, .err ⟨t.id, msg⟩)
    | .ok issue =>
      ({ t with githubIssue := some issue.number, githubUrl := some issue.url },
       .created ⟨t.id, issue.number, issue.url⟩)

/-- Prepend one iteration's contribution to the results accumulated from
the remaining iterations. -/
def applyDelta (delta : PushDelta) (rs : PushResults) : PushResults :=
  match delta with
  | .noop => rs
  | .created e => { rs with created := e :: rs.created }
  | .updated e => { rs with updated := e :: rs.updated }
  | .err e => { rs with errors := e :: rs.errors }

/-- The push loop over `data.tasks`: tasks failing the subset filter are
left untouched (the source iterates a filtered copy whose elements alias
`data.tasks`); entries are accumulated in list order. -/
def pushLoop (env : GhEnv) (filt : Task → Bool) :
    List Task → List Task × PushResults
  | [] => ([], ⟨[], [], []⟩)
  | t :: ts =>
    if filt t then
      ((pushStep env t).1 :: (pushLoop env filt ts).1,
       applyDelta (pushStep env t).2 (pushLoop env filt ts).2)
    else (t :: (pushLoop env filt ts).1, (pushLoop env filt ts).2)

/-- `syncToGitHub` (`part_000` lines 175-258).  The two `throw`s before the
loop are the only batch-level failures. -/
def syncToGitHub (env : GhEnv) (data : SprintData) (opts : PushOptions) :
    Except Str (List Task × PushResults) :=
  if !env.ghPresent then
    .error ("GitHub CLI (gh) not found. Install from https://cli.github.com".toList)
  else
    match env.repoInfo with
    | none => .error ("Not in a git repository with GitHub remote".toList)
    | some _ => .ok (pushLoop env (pushFilter opts data.currentSprint) data.tasks)

structure PullResults where
  updated : List UpdatedEntry
  errors : List ErrorEntry
deriving Repr, DecidableEq

/-- The informational warning printed when an issue is open but the local
task is done (`part_000` line 295). -/
structure PullWarn where
  id : Str
  issue : Int
deriving Repr, DecidableEq

/-- One iteration of the pull loop body (`part_000` lines 278-300): skip
unlinked tasks; skip tasks whose `getIssueStatus` returned `null`; closed
issue + local not done ⇒ set status to done and overwrite `completedAt`
with today (the source has no unset-guard here, unlike `cmdMove`); open
issue + local done ⇒ warn only. -/
def pullStep (env : GhEnv) (today : Str) (t : Task) :
    Task × Option UpdatedEntry × Option PullWarn :=
  match t.githubIssue with
  | none => (t, none, none)
  | some n =>
    match env.issueState n with
    | none => (t, none, none)
    | some st =>
      let isIssueClosed := st.state == ("CLOSED".toList)
      let isTaskDone := t.status == ("done".toList)
      if isIssueClosed && !isTaskDone then
        ({ t with status := ("done".toList), completedAt := some today },
         some ⟨t.id, ("marked done".toList)⟩, none)
      else if !isIssueClosed && isTaskDone then (t, none, some ⟨t.id, n⟩)
      else (t, none, none)

/-- The pull loop over `data.tasks`, in list order. -/
def pullLoop (env : GhEnv) (today : Str) :
    List Task → List Task × List UpdatedEntry × List PullWarn
  | [] => ([], [], [])
  | t :: ts =>
    ((pullStep env today t).1 :: (pullLoop env today ts).1,
     (pullStep env today t).2.1.toList ++ (pullLoop env today ts).2.1,
     (pullStep env today t).2.2.toList ++ (pullLoop env today ts).2.2)

/-- `pullFromGitHub` (`part_000` lines 261-303).  `results.errors` is always
empty: the `catch` at lines 297-299 is unreachable because `getIssueStatus`
catches internally and returns `null` on any subprocess failure, and nothing
else in the `try` block can throw. -/
def pullFromGitHub (env : GhEnv) (today : Str) (data : SprintData) :
    Except Str (List Task × PullResults × List PullWarn) :=
  if !env.ghPresent then .error ("GitHub CLI (gh) not found".toList)
  else
    match env.repoInfo with
    | none => .error ("Not in a git repository with GitHub remote".toList)
    | some _ =>
      .ok ((pullLoop env today data.tasks).1,
        ⟨(pullLoop env today data.tasks).2.1, []⟩,
        (pullLoop env today data.tasks).2.2)

/-! ## The `main` dispatch for the sync commands (`cli.js` lines 589-649) -/

/-- Observable outcome of one sync command: process exit code, the final
in-memory document, and whether `saveData` ran. -/
structure RunOutcome where
  exitCode : Nat
  data : SprintData
  saved : Bool
deriving Repr, DecidableEq

/-- `case 'push'` (`cli.js` lines 589-606).  A `syncToGitHub` throw after
the gh check would surface as an uncaught exception (non-zero exit, no
save). -/
def runPush (env : GhEnv) (clock : Clock) (data : SprintData)
    (args : List Str) : RunOutcome :=
  if !env.ghPresent then ⟨1, data, false⟩
  else
    match syncToGitHub env data ⟨!(args.contains ("--all".toList)), none⟩ with
    | .error _ => ⟨1, data, false⟩
    | .ok (ts, _) => ⟨0, saveData clock.nowIso { data with tasks := ts }, true⟩

/-- `case 'pull'` (`cli.js` lines 608-621). -/
def runPull (env : GhEnv) (clock : Clock) (data : SprintData) : RunOutcome :=
  if !env.ghPresent then ⟨1, data, false⟩
  else
    match pullFromGitHub env clock.today data with
    | .error _ => ⟨1, data, false⟩
    | .ok (ts, _, _) => ⟨0, saveData clock.nowIso { data with tasks := ts }, true⟩

/-- JS `!x` for an optional string argument (`!taskId`). -/
def strOptFalsy (o : Option Str) : Bool :=
  match o with
  | none => true
  | some s => s.isEmpty

/-- JS `!x` for `parseInt(args[2])` (`!issueNum`): `NaN` and `0` are falsy. -/
def intOptFalsy (o : Option Int) : Bool :=
  match o with
  | none => true
  | some n => n == 0

/-- The issue URL `link` writes when the repo is resolvable (`cli.js` line 639). -/
def linkUrl (ri : RepoInfo) (n : Int) : Str :=
  ("https://github.com/".toList) ++ ri.owner ++ '/' :: ri.repo ++
  ("/issues/".toList) ++ intToString n

/-- `case 'link'` (`cli.js` lines 623-649).  Note: this branch never calls
`checkGhCli`; `getRepoInfo` (a `git` call) failing only omits the URL. -/
def runLink (env : GhEnv) (clock : Clock) (data : SprintData)
    (args : List Str) : RunOutcome :=
  let taskId := args.get? 1
  let issueNum := (args.get? 2).bind jsParseInt
  if strOptFalsy taskId || intOptFalsy issueNum then ⟨1, data, false⟩
  else
    let tid := taskId.getD []
    let n := issueNum.getD 0
    match mutateFirst (idMatch tid)
        (fun t =>
          match env.repoInfo with
          | some ri => { t with githubIssue := some n, githubUrl := some (linkUrl ri n) }
          | none => { t with githubIssue := some n })
        data.tasks with
    | none => ⟨1, data, false⟩
    | some ts => ⟨0, saveData clock.nowIso { data with tasks := ts }, true⟩

/-! ## General lemmas about the helpers -/

theorem padRight_length (s : Str) (len : Nat) : (padRight s len).length = len := by
  rw [padRight]
  split
  · rename_i h
    simp only [List.length_take]
    omega
  · rename_i h
    simp only [List.length_append, List.length_replicate]
    omega

theorem padRight_of_long (s : Str) (len : Nat) (h : s.length ≥ len) :
    padRight s len = s.take len := by
  simp [padRight, h]

theorem padRight_of_short (s : Str) (len : Nat) (h : s.length < len) :
    padRight s len = s ++ List.replicate (len - s.length) ' ' := by
  have : ¬ s.length ≥ len := by omega
  simp [padRight, this]

theorem joinSep_length (sep : Str) (w : Nat) :
    ∀ xs : List Str, (∀ x ∈ xs, x.length = w) →
      (joinSep sep xs).length = xs.length * w + (xs.length - 1) * sep.length
  | [] => by simp [joinSep]
  | [x] => by intro h; simp [joinSep, h x (by simp)]
  | x :: y :: xs => by
    intro h
    have ih := joinSep_length sep w (y :: xs) (fun u hu => h u (List.mem_cons_of_mem x hu))
    have hx : x.length = w := h x (List.mem_cons_self x _)
    show (x ++ sep ++ joinSep sep (y :: xs)).length = _
    simp only [List.length_append, List.length_cons] at *
    rw [ih, hx]
    simp only [Nat.add_sub_cancel]
    ring

/-! ### `mutateFirst` (find + in-place mutation) -/

theorem mutateFirst_eq_none_iff (p : Task → Bool) (f : Task → Task) :
    ∀ ts : List Task, mutateFirst p f ts = none ↔ ∀ t ∈ ts, p t = false
  | [] => by simp [mutateFirst]
  | t :: ts => by
    by_cases h : p t
    · simp [mutateFirst, h]
    · rw [show mutateFirst p f (t :: ts) = (mutateFirst p f ts).map (t :: ·) from by
        simp [mutateFirst, h]]
      rw [Option.map_eq_none']
      rw [mutateFirst_eq_none_iff p f ts]
      constructor
      · intro hall u hu
        rcases List.mem_cons.mp hu with rfl | hu
        · exact Bool.eq_false_iff.mpr h
        · exact hall u hu
      · intro hall u hu
        exact hall u (List.mem_cons_of_mem _ hu)

theorem mutateFirst_eq_some (p : Task → Bool) (f : Task → Task) :
    ∀ {ts ts' : List Task}, mutateFirst p f ts = some ts' →
      ∃ l t r, ts = l ++ t :: r ∧ p t = true ∧ (∀ u ∈ l, p u = false) ∧
        ts' = l ++ f t :: r := by
  intro ts
  induction ts with
  | nil => intro ts' h; simp [mutateFirst] at h
  | cons t ts ih =>
    intro ts' h
    by_cases hp : p t
    · rw [show mutateFirst p f (t :: ts) = some (f t :: ts) from by
        simp [mutateFirst, hp]] at h
      refine ⟨[], t, ts, by simp, hp, by simp, ?_⟩
      simpa using (Option.some.inj h).symm
    · rw [show mutateFirst p f (t :: ts) = (mutateFirst p f ts).map (t :: ·) from by
        simp [mutateFirst, hp]] at h
      rw [Option.map_eq_some'] at h
      obtain ⟨rs, hrs, hts⟩ := h
      obtain ⟨l, u, r, hdec, hu, hl, hrs'⟩ := ih hrs
      refine ⟨t :: l, u, r, by simp [hdec], hu, ?_, ?_⟩
      · intro v hv
        rcases List.mem_cons.mp hv with rfl | hv
        · exact Bool.eq_false_iff.mpr hp
        · exact hl v hv
      · rw [← hts, hrs']
        simp

/-! ### Evaluating `jsRound` -/

theorem jsRound_eq (q : ℚ) (z : ℤ) (h₁ : (z : ℚ) ≤ q + 1/2) (h₂ : q + 1/2 < z + 1) :
    jsRound q = z := by
  rw [jsRound]
  exact Int.floor_eq_iff.mpr ⟨h₁, by exact_mod_cast h₂⟩

/-- Successful `cmdMove` runs decompose into a found-and-mutated task list
followed by a save. -/
theorem cmdMove_ok_elim {config : Config} {clock : Clock} {data : SprintData}
    {taskId newStatus : Str} {d' : SprintData}
    (h : cmdMove config clock data taskId newStatus = .ok d') :
    ∃ ts, mutateFirst (idMatch taskId) (moveApply clock newStatus) data.tasks = some ts ∧
      d' = saveData clock.nowIso { data with tasks := ts } := by
  unfold cmdMove at h
  by_cases hc : (config.columns.getD defaultColumns).contains newStatus = true
  · rw [if_neg (not_not_intro hc)] at h
    cases hm : mutateFirst (idMatch taskId) (moveApply clock newStatus) data.tasks with
    | none => rw [hm] at h; exact absurd h (by simp)
    | some ts => rw [hm] at h; exact ⟨ts, rfl, (Except.ok.inj h).symm⟩
  · rw [if_pos hc] at h
    exact absurd h (by simp)

theorem moveApply_status (clock : Clock) (newStatus : Str) (t : Task) :
    (moveApply clock newStatus t).status = newStatus := rfl

theorem moveApply_completedAt_pos (clock : Clock) {newStatus : Str} {t : Task}
    (hdone : newStatus = ("done".toList)) (hunset : completedAtUnset t = true) :
    (moveApply clock newStatus t).completedAt = some clock.today := by
  have hcond : (newStatus == ("done".toList) && completedAtUnset t) = true := by
    subst hdone
    simp [hunset]
  unfold moveApply
  simp only [hcond]
  rfl

theorem moveApply_completedAt_of_set (clock : Clock) (newStatus : Str) {t : Task}
    (hset : completedAtUnset t = false) :
    (moveApply clock newStatus t).completedAt = t.completedAt := by
  have hcond : (newStatus == ("done".toList) && completedAtUnset t) = false := by
    simp [hset]
  unfold moveApply
  simp only [hcond]
  rfl

theorem moveApply_completedAt_of_ne (clock : Clock) {newStatus : Str} (t : Task)
    (hne : newStatus ≠ ("done".toList)) :
    (moveApply clock newStatus t).completedAt = t.completedAt := by
  have hb : (newStatus == ("done".toList)) = false := by
    simpa using hne
  have hcond : (newStatus == ("done".toList) && completedAtUnset t) = false := by
    rw [hb, Bool.false_and]
  unfold moveApply
  simp only [hcond]
  rfl

/-! ## Claim theorems -/

/-- Claim C1 (confirmed).  Move fails — reporting an error, with no mutation
and no save — when the target status is not in the configured column list or
no task id matches case-insensitively; on success it sets the first matched
task's status to the target, stamps `completedAt` with today's date iff the
target is `done` and `completedAt` was unset, and never changes an already
set `completedAt`. -/
theorem claim_C1 (config : Config) (clock : Clock) (data : SprintData)
    (taskId newStatus : Str) :
    (¬ (config.columns.getD defaultColumns).contains newStatus = true →
      cmdMove config clock data taskId newStatus = .error ("Invalid status".toList)) ∧
    ((config.columns.getD defaultColumns).contains newStatus = true →
      (∀ t ∈ data.tasks, idMatch taskId t = false) →
      cmdMove config clock data taskId newStatus = .error ("Task not found".toList)) ∧
    (∀ d', cmdMove config clock data taskId newStatus = .ok d' →
      ∃ l t r, data.tasks = l ++ t :: r ∧ idMatch taskId t = true ∧
        (∀ u ∈ l, idMatch taskId u = false) ∧
        d'.tasks = l ++ moveApply clock newStatus t :: r ∧
        (moveApply clock newStatus t).status = newStatus ∧
        (newStatus = ("done".toList) → completedAtUnset t = true →
          (moveApply clock newStatus t).completedAt = some clock.today) ∧
        (completedAtUnset t = false →
          (moveApply clock newStatus t).completedAt = t.completedAt) ∧
        (newStatus ≠ ("done".toList) →
          (moveApply clock newStatus t).completedAt = t.completedAt)) := by
  refine ⟨?_, ?_, ?_⟩
  · intro h
    unfold cmdMove
    rw [if_pos h]
  · intro hc hnone
    have hm : mutateFirst (idMatch taskId) (moveApply clock newStatus) data.tasks = none :=
      (mutateFirst_eq_none_iff _ _ _).mpr hnone
    unfold cmdMove
    rw [if_neg (not_not_intro hc), hm]
  · intro d' h
    obtain ⟨ts, hts, rfl⟩ := cmdMove_ok_elim h
    obtain ⟨l, t, r, hdec, hmatch, hl, rfl⟩ := mutateFirst_eq_some _ _ hts
    refine ⟨l, t, r, hdec, hmatch, hl, rfl, moveApply_status clock newStatus t, ?_, ?_, ?_⟩
    · intro hdone hunset
      exact moveApply_completedAt_pos clock hdone hunset
    · intro hset
      exact moveApply_completedAt_of_set clock newStatus hset
    · intro hne
      exact moveApply_completedAt_of_ne clock t hne

/-- Witness for C1: moving to a status outside the configured columns
fails with the invalid-status error. -/
theorem claim_C1_witness :
    cmdMove ⟨none, none⟩ ⟨("2026-02-02".toList), ("T1".toList)⟩
      { project := [], version := none, currentSprint := ("1".toList),
        sprintStart := [], sprintEnd := [], capacity := ⟨80, 64, 16⟩,
        tasks := [], technicalDebt := [], lastUpdated := [] }
      ("task-001".toList) ("archived".toList) = .error ("Invalid status".toList) :=
  (claim_C1 ⟨none, none⟩ ⟨("2026-02-02".toList), ("T1".toList)⟩
      { project := [], version := none, currentSprint := ("1".toList),
        sprintStart := [], sprintEnd := [], capacity := ⟨80, 64, 16⟩,
        tasks := [], technicalDebt := [], lastUpdated := [] }
      ("task-001".toList) ("archived".toList)).1 (by decide)

/-- Claim C9 (confirmed).  A successful Move changes only the matched
task's `status` (and possibly `completedAt`) and the document's
`lastUpdated`; every other field of the moved task, every other task, and
the `technicalDebt`, `capacity` and sprint metadata are unchanged. -/
theorem claim_C9 (config : Config) (clock : Clock) (data : SprintData)
    (taskId newStatus : Str) (d' : SprintData)
    (h : cmdMove config clock data taskId newStatus = .ok d') :
    d'.project = data.project ∧ d'.version = data.version ∧
    d'.currentSprint = data.currentSprint ∧ d'.sprintStart = data.sprintStart ∧
    d'.sprintEnd = data.sprintEnd ∧ d'.capacity = data.capacity ∧
    d'.technicalDebt = data.technicalDebt ∧ d'.lastUpdated = clock.nowIso ∧
    ∃ l t r, data.tasks = l ++ t :: r ∧
      d'.tasks = l ++ moveApply clock newStatus t :: r ∧
      (moveApply clock newStatus t).id = t.id ∧
      (moveApply clock newStatus t).title = t.title ∧
      (moveApply clock newStatus t).type = t.type ∧
      (moveApply clock newStatus t).priority = t.priority ∧
      (moveApply clock newStatus t).points = t.points ∧
      (moveApply clock newStatus t).sprint = t.sprint ∧
      (moveApply clock newStatus t).owner = t.owner ∧
      (moveApply clock newStatus t).branch = t.branch ∧
      (moveApply clock newStatus t).worktree = t.worktree ∧
      (moveApply clock newStatus t).notes = t.notes ∧
      (moveApply clock newStatus t).linkedTD = t.linkedTD ∧
      (moveApply clock newStatus t).acceptanceCriteria = t.acceptanceCriteria ∧
      (moveApply clock newStatus t).blockers = t.blockers ∧
      (moveApply clock newStatus t).createdAt = t.createdAt ∧
      (moveApply clock newStatus t).githubIssue = t.githubIssue ∧
      (moveApply clock newStatus t).githubUrl = t.githubUrl ∧
      ((moveApply clock newStatus t).completedAt = t.completedAt ∨
        (newStatus = ("done".toList) ∧ completedAtUnset t = true ∧
          (moveApply clock newStatus t).completedAt = some clock.today)) := by
  obtain ⟨ts, hts, rfl⟩ := cmdMove_ok_elim h
  obtain ⟨l, t, r, hdec, hmatch, hl, rfl⟩ := mutateFirst_eq_some _ _ hts
  refine ⟨rfl, rfl, rfl, rfl, rfl, rfl, rfl, rfl, l, t, r, hdec, rfl,
    rfl, rfl, rfl, rfl, rfl, rfl, rfl, rfl, rfl, rfl, rfl, rfl, rfl, rfl, rfl, rfl, ?_⟩
  by_cases hdone : newStatus = ("done".toList)
  · by_cases hunset : completedAtUnset t = true
    · exact Or.inr ⟨hdone, hunset, moveApply_completedAt_pos clock hdone hunset⟩
    · have hset : completedAtUnset t = false := by
        cases hcase : completedAtUnset t
        · rfl
        · exact absurd hcase hunset
      exact Or.inl (moveApply_completedAt_of_set clock newStatus hset)
  · exact Or.inl (moveApply_completedAt_of_ne clock t hdone)

/-- Witness for C9 at a concrete successful move. -/
theorem claim_C9_witness :
    (cmdMove ⟨none, none⟩ ⟨("2026-02-02".toList), ("T1".toList)⟩
      { project := ("p".toList), version := none, currentSprint := ("1".toList),
        sprintStart := [], sprintEnd := [], capacity := ⟨80, 64, 16⟩,
        tasks := [{ id := ("TASK-001".toList), title := ("t".toList), type := ("feature".toList),
                    status := ("ready".toList), priority := ("medium".toList), points := 3,
                    sprint := ("1".toList), owner := none, branch := none,
                    worktree := none, notes := none, linkedTD := none,
                    acceptanceCriteria := [], blockers := [],
                    createdAt := ("2026-01-01".toList), completedAt := none,
                    githubIssue := none, githubUrl := none }],
        technicalDebt := [⟨("TD-1".toList), ("open".toList), some 0, none⟩],
        lastUpdated := ("old".toList) }
      ("task-001".toList) ("done".toList)).isOk = true ∧
    ∀ d', cmdMove ⟨none, none⟩ ⟨("2026-02-02".toList), ("T1".toList)⟩
      { project := ("p".toList), version := none, currentSprint := ("1".toList),
        sprintStart := [], sprintEnd := [], capacity := ⟨80, 64, 16⟩,
        tasks := [{ id := ("TASK-001".toList), title := ("t".toList), type := ("feature".toList),
                    status := ("ready".toList), priority := ("medium".toList), points := 3,
                    sprint := ("1".toList), owner := none, branch := none,
                    worktree := none, notes := none, linkedTD := none,
                    acceptanceCriteria := [], blockers := [],
                    createdAt := ("2026-01-01".toList), completedAt := none,
                    githubIssue := none, githubUrl := none }],
        technicalDebt := [⟨("TD-1".toList), ("open".toList), some 0, none⟩],
        lastUpdated := ("old".toList) }
      ("task-001".toList) ("done".toList) = .ok d' →
      d'.technicalDebt = [⟨("TD-1".toList), ("open".toList), some 0, none⟩] ∧
      d'.lastUpdated = ("T1".toList) := by
  refine ⟨by rfl, ?_⟩
  intro d' h
  have h9 := claim_C9 ⟨none, none⟩ ⟨("2026-02-02".toList), ("T1".toList)⟩ _
    ("task-001".toList) ("done".toList) d' h
  exact ⟨h9.2.2.2.2.2.2.1, h9.2.2.2.2.2.2.2.1⟩

/-- Claim C6, as stated, is false on the code: with the default five-column
configuration the per-cell width is `Math.floor(78 / 5) = 15`, not
`floor(80 / 5) = 16`; a rendered header cell is 15 characters wide. -/
theorem claim_C6_counterexample :
    defaultColumns.length = 5 ∧
    boardColWidth defaultColumns = 15 ∧
    (boardHeaderCell (boardColWidth defaultColumns) ("backlog".toList)).length = 15 ∧
    80 / defaultColumns.length = 16 ∧ (15 : Nat) ≠ 16 := by
  exact ⟨by decide, by decide, by decide, by decide, by decide⟩

/-- Claim C6 (amended): for n ≥ 1 configured columns the per-column width is
`floor(78 / n)` (the 80-character width is only the banner/rule width);
every rendered header and task cell is exactly that many characters wide —
longer content is truncated to its left-most `floor(78/n)` characters,
shorter content is space-padded — and a header row is
`n·floor(78/n) + (n−1)` characters wide. -/
theorem claim_C6_amended (columns : List Str) (_h : 1 ≤ columns.length) :
    boardColWidth columns = 78 / columns.length ∧
    (∀ t : Task, (boardTaskCell (boardColWidth columns) t).length = boardColWidth columns) ∧
    (∀ col : Str, (boardHeaderCell (boardColWidth columns) col).length = boardColWidth columns) ∧
    (∀ (s : Str) (w : Nat), s.length ≥ w → padRight s w = s.take w) ∧
    (∀ (s : Str) (w : Nat), s.length < w →
      padRight s w = s ++ List.replicate (w - s.length) ' ') ∧
    (boardHeaderRow columns).length =
      columns.length * boardColWidth columns + (columns.length - 1) := by
  refine ⟨rfl, fun t => padRight_length _ _, fun col => padRight_length _ _,
    fun s w hw => padRight_of_long s w hw, fun s w hw => padRight_of_short s w hw, ?_⟩
  have hall : ∀ x ∈ columns.map (boardHeaderCell (boardColWidth columns)),
      x.length = boardColWidth columns := by
    intro x hx
    obtain ⟨c, _, rfl⟩ := List.mem_map.mp hx
    exact padRight_length _ _
  have := joinSep_length ['│'] (boardColWidth columns)
    (columns.map (boardHeaderCell (boardColWidth columns))) hall
  rw [boardHeaderRow, this]
  simp

/-- Witness for the amended C6 at the default configuration. -/
theorem claim_C6_witness :
    1 ≤ defaultColumns.length ∧
    boardColWidth defaultColumns = 78 / defaultColumns.length ∧
    (boardHeaderRow defaultColumns).length =
      defaultColumns.length * boardColWidth defaultColumns + (defaultColumns.length - 1) :=
  ⟨by decide, (claim_C6_amended defaultColumns (by decide)).1,
   (claim_C6_amended defaultColumns (by decide)).2.2.2.2.2⟩

/-! ### Progress metric lemmas and claims C5, C10 -/

theorem foldl_add_points (l : List Task) (a : Int) :
    l.foldl (fun sum t => sum + t.points) a = a + (l.map Task.points).sum := by
  induction l generalizing a with
  | nil => simp
  | cons t ts ih =>
    rw [List.foldl_cons, ih, List.map_cons, List.sum_cons]
    ring

theorem donePoints_eq (d : SprintData) :
    donePoints d =
      (((sprintTasks d).filter (fun t => t.status == ("done".toList))).map Task.points).sum := by
  rw [donePoints, foldl_add_points, zero_add]

theorem totalPoints_eq (d : SprintData) :
    totalPoints d = ((sprintTasks d).map Task.points).sum := by
  rw [totalPoints, foldl_add_points, zero_add]

theorem totalPoints_nonneg (d : SprintData) (hpts : ∀ t ∈ d.tasks, 0 ≤ t.points) :
    0 ≤ totalPoints d := by
  rw [totalPoints_eq]
  apply List.sum_nonneg
  intro x hx
  obtain ⟨t, ht, rfl⟩ := List.mem_map.mp hx
  exact hpts t (List.mem_of_mem_filter ht)

/-- A document for the progress example of the spec: active points
`[3, 5, 0]`, the done ones summing to 3. -/
def progressDoc : SprintData :=
  { project := ("p".toList), version := none, currentSprint := ("1".toList),
    sprintStart := [], sprintEnd := [], capacity := ⟨80, 64, 16⟩,
    tasks :=
      [{ id := ("TASK-001".toList), title := ("a".toList), type := ("feature".toList),
         status := ("done".toList), priority := ("medium".toList), points := 3,
         sprint := ("1".toList), owner := none, branch := none, worktree := none,
         notes := none, linkedTD := none, acceptanceCriteria := [], blockers := [],
         createdAt := [], completedAt := some ("2026-01-20".toList),
         githubIssue := none, githubUrl := none },
       { id := ("TASK-002".toList), title := ("b".toList), type := ("feature".toList),
         status := ("in_progress".toList), priority := ("medium".toList), points := 5,
         sprint := ("1".toList), owner := none, branch := none, worktree := none,
         notes := none, linkedTD := none, acceptanceCriteria := [], blockers := [],
         createdAt := [], completedAt := none, githubIssue := none, githubUrl := none },
       { id := ("TASK-003".toList), title := ("c".toList), type := ("feature".toList),
         status := ("done".toList), priority := ("medium".toList), points := 0,
         sprint := ("1".toList), owner := none, branch := none, worktree := none,
         notes := none, linkedTD := none, acceptanceCriteria := [], blockers := [],
         createdAt := [], completedAt := some ("2026-01-21".toList),
         githubIssue := none, githubUrl := none }],
    technicalDebt := [], lastUpdated := [] }

/-- Claim C5 (confirmed).  For non-negative points, the displayed progress
is `Math.round(donePoints / totalPoints * 100)` over the active subset, and
0 when the total is 0 (no division by zero). -/
theorem claim_C5 (d : SprintData) (hpts : ∀ t ∈ d.tasks, 0 ≤ t.points) :
    (totalPoints d = 0 → boardProgress d = 0) ∧
    (totalPoints d ≠ 0 →
      boardProgress d =
        jsRound ((((((sprintTasks d).filter
            (fun t => t.status == ("done".toList))).map Task.points).sum : Int) : ℚ) /
          (((((sprintTasks d).map Task.points).sum : Int) : ℚ)) * 100)) := by
  constructor
  · intro h0
    rw [boardProgress, h0]
    simp
  · intro hne
    have hpos : totalPoints d > 0 := lt_of_le_of_ne (totalPoints_nonneg d hpts) (Ne.symm hne)
    rw [boardProgress, if_pos hpos, donePoints_eq, totalPoints_eq]

/-- Witness for C5: active points `[3, 5, 0]` with done points summing to 3
give progress `round(3/8·100) = 38`. -/
theorem claim_C5_witness :
    (∀ t ∈ progressDoc.tasks, 0 ≤ t.points) ∧
    (totalPoints progressDoc ≠ 0 →
      boardProgress progressDoc =
        jsRound ((((((sprintTasks progressDoc).filter
            (fun t => t.status == ("done".toList))).map Task.points).sum : Int) : ℚ) /
          (((((sprintTasks progressDoc).map Task.points).sum : Int) : ℚ)) * 100)) ∧
    boardProgress progressDoc = 38 := by
  refine ⟨by decide, (claim_C5 progressDoc (by decide)).2, ?_⟩
  have h := (claim_C5 progressDoc (by decide)).2 (by decide)
  rw [h]
  have h3 : ((((sprintTasks progressDoc).filter
      (fun t => t.status == ("done".toList))).map Task.points).sum : Int) = 3 := by decide
  have h8 : (((sprintTasks progressDoc).map Task.points).sum : Int) = 8 := by decide
  rw [h3, h8]
  apply jsRound_eq
  · push_cast
    norm_num
  · push_cast
    norm_num

/-- Evaluating `createProgressBar` when the rounded fill is known. -/
theorem createProgressBar_eq (percent : ℚ) (width : Nat) (z : ℤ)
    (hz : jsRound (percent / 100 * width) = z) (h0 : 0 ≤ z) (hw : z ≤ (width : Int)) :
    createProgressBar percent width =
      some ('[' :: (List.replicate z.toNat '█' ++
        List.replicate ((width : Int) - z).toNat '░' ++ [(']')])) := by
  simp only [createProgressBar, hz]
  rw [if_neg (by omega)]

/-- `createProgressBar` throws exactly when the rounded fill is negative or
exceeds the width. -/
theorem createProgressBar_none_iff (percent : ℚ) (width : Nat) :
    createProgressBar percent width = none ↔
      (jsRound (percent / 100 * width) < 0 ∨
        (width : Int) < jsRound (percent / 100 * width)) := by
  by_cases hcond : (jsRound (percent / 100 * width) < 0 ∨
      (width : Int) < jsRound (percent / 100 * width))
  · simp only [createProgressBar, if_pos hcond]
    exact iff_of_true trivial hcond
  · simp only [createProgressBar, if_neg hcond]
    exact iff_of_false (by simp) hcond

/-- The rounded fill stays within `[0, width]` for percentages in `[0, 100]`. -/
theorem jsRound_fill_bounds (percent : ℚ) (width : Nat)
    (h0 : 0 ≤ percent) (h1 : percent ≤ 100) :
    0 ≤ jsRound (percent / 100 * width) ∧
      jsRound (percent / 100 * width) ≤ (width : Int) := by
  have hx0 : 0 ≤ percent / 100 * width :=
    mul_nonneg (div_nonneg h0 (by norm_num)) (Nat.cast_nonneg width)
  have hx1 : percent / 100 * width ≤ (width : ℚ) := by
    have hq : percent / 100 ≤ 1 := by
      rw [div_le_one (by norm_num : (0:ℚ) < 100)]
      exact h1
    calc percent / 100 * width ≤ 1 * width :=
          mul_le_mul_of_nonneg_right hq (Nat.cast_nonneg width)
      _ = (width : ℚ) := one_mul _
  constructor
  · rw [jsRound]
    exact Int.le_floor.mpr (by push_cast; linarith)
  · have hcast : (((width : ℤ)) : ℚ) = (width : ℚ) := by push_cast; ring
    calc jsRound (percent / 100 * width) = ⌊percent / 100 * width + 1/2⌋ := rfl
      _ ≤ ⌊((width : ℤ) : ℚ) + 1/2⌋ := Int.floor_le_floor (by rw [hcast]; linarith)
      _ = (width : ℤ) + ⌊(1/2 : ℚ)⌋ := Int.floor_int_add _ _
      _ = (width : ℤ) := by norm_num

/-- A document whose tech-debt progress of 110 drives `createProgressBar`
into its throwing branch from the debt view. -/
def debtDoc110 : SprintData :=
  { project := ("p".toList), version := none, currentSprint := ("1".toList),
    sprintStart := [], sprintEnd := [], capacity := ⟨80, 64, 16⟩,
    tasks := [], technicalDebt := [⟨("TD-9".toList), ("open".toList), some 110, none⟩],
    lastUpdated := [] }

/-- Claim C10, as stated, is false on the code: it asserts that *every*
`percent > 100` makes the empty-cell repeat count negative and throws, but
`percent = 101` with the debt view's width 15 rounds to a fill of 15, repeat
count 0, and returns a normal bar. -/
theorem claim_C10_counterexample :
    (101 : ℚ) > 100 ∧
    createProgressBar 101 15 = some ("[███████████████]".toList) := by
  refine ⟨by norm_num, ?_⟩
  have h := createProgressBar_eq 101 15 15 (by
    apply jsRound_eq
    · push_cast
      norm_num
    · push_cast
      norm_num) (by norm_num) (by norm_num)
  rw [h]
  rfl

/-- Claim C10 (amended): under `0 ≤ percent ≤ 100` the function is total and
returns a bar of exactly `width` cells; it throws exactly when
`round(percent/100·width)` is negative or exceeds `width` — which some, but
not all, `percent > 100` reach — and the debt view applies it to each item's
unvalidated progress value, so the throwing branch is reachable from the
public interface (e.g. progress 110 at width 15). -/
theorem claim_C10_amended :
    (∀ (percent : ℚ) (width : Nat), 0 ≤ percent → percent ≤ 100 →
      ∃ bar, createProgressBar percent width = some bar ∧
        bar.length = width + 2) ∧
    (∀ (percent : ℚ) (width : Nat),
      createProgressBar percent width = none ↔
        (jsRound (percent / 100 * width) < 0 ∨
          (width : Int) < jsRound (percent / 100 * width))) ∧
    cmdDebtBars debtDoc110 = none := by
  refine ⟨?_, createProgressBar_none_iff, ?_⟩
  · intro percent width h0 h1
    obtain ⟨hf0, hfw⟩ := jsRound_fill_bounds percent width h0 h1
    refine ⟨_, createProgressBar_eq percent width _ rfl hf0 hfw, ?_⟩
    simp only [List.length_cons, List.length_append, List.length_replicate,
      List.length_nil]
    omega
  · have h110 : createProgressBar ((110 : ℚ)) 15 = none := by
      rw [createProgressBar_none_iff]
      right
      have : jsRound ((110 : ℚ) / 100 * (15 : Nat)) = 17 := by
        apply jsRound_eq
        · push_cast
          norm_num
        · push_cast
          norm_num
      rw [this]
      norm_num
    simp [cmdDebtBars, debtDoc110, debtBarsLoop, h110]

/-- Witness for the amended C10 at `percent = 40`, `width = 15`. -/
theorem claim_C10_witness :
    ∃ bar, createProgressBar 40 15 = some bar ∧ bar.length = 15 + 2 :=
  claim_C10_amended.1 40 15 (by norm_num) (by norm_num)

/-! ### Decimal round-trip lemmas for the ID generator (claim C4) -/

theorem natToDigitsRec_small {n : Nat} (h : n < 10) :
    natToDigitsRec n = [digitChar n] := by
  rw [natToDigitsRec]
  exact dif_pos h

theorem natToDigitsRec_large {n : Nat} (h : ¬ n < 10) :
    natToDigitsRec n = natToDigitsRec (n / 10) ++ [digitChar (n % 10)] := by
  rw [natToDigitsRec]
  exact dif_neg h

theorem natToDigitsAux_eq_rec :
    ∀ (fuel n : Nat) (acc : List Char), n < fuel →
      natToDigitsAux fuel n acc = natToDigitsRec n ++ acc := by
  intro fuel
  induction fuel with
  | zero => intro n acc h; omega
  | succ fuel ih =>
    intro n acc h
    by_cases h10 : n < 10
    · rw [natToDigitsAux, if_pos h10, natToDigitsRec_small h10]
      rfl
    · rw [natToDigitsAux, if_neg h10]
      have hdiv : n / 10 < fuel := by
        have : n / 10 < n := Nat.div_lt_self (by omega) (by omega)
        omega
      rw [ih (n / 10) (digitChar (n % 10) :: acc) hdiv]
      rw [natToDigitsRec_large h10]
      simp

theorem natToDigits_eq_rec (n : Nat) : natToDigits n = natToDigitsRec n := by
  rw [natToDigits, natToDigitsAux_eq_rec (n + 1) n [] (Nat.lt_succ_self n),
    List.append_nil]

theorem digitVal_digitChar {d : Nat} (h : d < 10) : digitVal (digitChar d) = d := by
  interval_cases d <;> decide

theorem isDigitChar_digitChar {d : Nat} (h : d < 10) :
    isDigitChar (digitChar d) = true := by
  interval_cases d <;> decide

theorem natToDigitsRec_ne_nil (n : Nat) : natToDigitsRec n ≠ [] := by
  rw [natToDigitsRec]
  split
  · simp
  · simp

theorem natToDigitsRec_all_digits (n : Nat) :
    ∀ c ∈ natToDigitsRec n, isDigitChar c = true := by
  induction n using natToDigitsRec.induct with
  | case1 n h =>
    intro c hc
    rw [natToDigitsRec_small h] at hc
    simp only [List.mem_singleton] at hc
    subst hc
    exact isDigitChar_digitChar h
  | case2 n h ih =>
    intro c hc
    rw [natToDigitsRec_large h] at hc
    rcases List.mem_append.mp hc with hc | hc
    · exact ih c hc
    · simp only [List.mem_singleton] at hc
      subst hc
      exact isDigitChar_digitChar (Nat.mod_lt n (by omega))

theorem digitsVal_append_singleton (l : Str) (c : Char) :
    digitsVal (l ++ [c]) = 10 * digitsVal l + digitVal c := by
  rw [digitsVal, List.foldl_append]
  rfl

theorem digitsVal_natToDigitsRec (n : Nat) : digitsVal (natToDigitsRec n) = n := by
  induction n using natToDigitsRec.induct with
  | case1 n h =>
    rw [natToDigitsRec_small h]
    show 10 * 0 + digitVal (digitChar n) = n
    rw [digitVal_digitChar h]
    omega
  | case2 n h ih =>
    rw [natToDigitsRec_large h, digitsVal_append_singleton, ih,
      digitVal_digitChar (Nat.mod_lt n (by omega))]
    omega

theorem foldl_digitsVal_replicate_zero (m : Nat) :
    List.foldl (fun a c => 10 * a + digitVal c) 0 (List.replicate m '0') = 0 := by
  induction m with
  | zero => rfl
  | succ m ih =>
    rw [List.replicate_succ, List.foldl_cons]
    simpa using ih

theorem digitsVal_replicate_zero_append (m : Nat) (l : Str) :
    digitsVal (List.replicate m '0' ++ l) = digitsVal l := by
  rw [digitsVal, List.foldl_append, foldl_digitsVal_replicate_zero]
  rfl

theorem digit_not_space {c : Char} (h : isDigitChar c = true) :
    isSpaceChar c = false := by
  simp only [isDigitChar, Bool.and_eq_true, decide_eq_true_eq] at h
  rw [Bool.eq_false_iff]
  intro hsp
  simp only [isSpaceChar, Bool.or_eq_true, beq_iff_eq] at hsp
  omega

theorem digit_ne_minus {c : Char} (h : isDigitChar c = true) : ¬ c = '-' := by
  intro hc
  subst hc
  exact absurd h (by decide)

theorem digit_ne_plus {c : Char} (h : isDigitChar c = true) : ¬ c = '+' := by
  intro hc
  subst hc
  exact absurd h (by decide)

theorem takeWhile_eq_self (p : Char → Bool) :
    ∀ l : Str, (∀ c ∈ l, p c = true) → l.takeWhile p = l
  | [] => fun _ => rfl
  | c :: rest => fun h => by
    rw [List.takeWhile_cons, if_pos (h c (List.mem_cons_self _ _))]
    rw [takeWhile_eq_self p rest (fun u hu => h u (List.mem_cons_of_mem _ hu))]

theorem jsParseInt_digits (l : Str) (hne : l ≠ [])
    (hd : ∀ c ∈ l, isDigitChar c = true) :
    jsParseInt l = some ((digitsVal l : Nat) : Int) := by
  cases l with
  | nil => exact absurd rfl hne
  | cons c rest =>
    have hdc : isDigitChar c = true := hd c (List.mem_cons_self _ _)
    have hspace : isSpaceChar c = false := digit_not_space hdc
    have hdrop : (c :: rest).dropWhile isSpaceChar = c :: rest := by
      rw [List.dropWhile_cons, if_neg (by simp [hspace])]
    have htake : (c :: rest).takeWhile isDigitChar = c :: rest :=
      takeWhile_eq_self _ _ hd
    have hparse : parseDigits (c :: rest) = some (digitsVal (c :: rest)) := by
      rw [parseDigits, htake, if_neg (by simp)]
    simp only [jsParseInt, hdrop]
    rw [if_neg (digit_ne_minus hdc), if_neg (digit_ne_plus hdc), hparse]

theorem strStartsWith_append (pat rest : Str) :
    strStartsWith (pat ++ rest) pat = true := by
  induction pat with
  | nil =>
    rw [List.nil_append]
    cases rest <;> rfl
  | cons p ps ih =>
    simp only [List.cons_append, strStartsWith, beq_self_eq_true, Bool.true_and]
    exact ih

theorem replaceFirst_cancel (pat rest : Str) :
    replaceFirst pat [] (pat ++ rest) = rest := by
  have hsw : strStartsWith (pat ++ rest) pat = true := strStartsWith_append pat rest
  cases h : pat ++ rest with
  | nil =>
    obtain ⟨hp, hr⟩ := List.append_eq_nil.mp h
    subst hp
    subst hr
    rfl
  | cons c cs =>
    rw [h] at hsw
    rw [replaceFirst, if_pos hsw, List.nil_append, ← h, List.drop_left]

/-- The generated id parses back to its own suffix:
`parseInt(newId.replace(prefix + '-', '')) = maxNum + 1`. -/
theorem parse_mkTaskId (pfx : Str) (k : Int) (hk : 0 ≤ k) :
    jsParseIntOrZero (replaceFirst (pfx ++ ['-']) [] (mkTaskId pfx k)) = k := by
  have hassoc : mkTaskId pfx k = (pfx ++ ['-']) ++ padStart (intToString k) 3 '0' := by
    rw [mkTaskId]
    simp
  rw [hassoc, replaceFirst_cancel]
  have hpos : intToString k = natToDigits k.toNat := by
    rw [intToString, if_neg (by omega)]
  rw [hpos, natToDigits_eq_rec, padStart]
  have hd : ∀ c ∈ List.replicate (3 - (natToDigitsRec k.toNat).length) '0' ++
      natToDigitsRec k.toNat, isDigitChar c = true := by
    intro c hc
    rcases List.mem_append.mp hc with hc | hc
    · have := List.eq_of_mem_replicate hc
      subst this
      decide
    · exact natToDigitsRec_all_digits k.toNat c hc
  have hne : List.replicate (3 - (natToDigitsRec k.toNat).length) '0' ++
      natToDigitsRec k.toNat ≠ [] := by
    intro hcon
    exact natToDigitsRec_ne_nil k.toNat (List.append_eq_nil.mp hcon).2
  rw [jsParseIntOrZero, jsParseInt_digits _ hne hd]
  rw [digitsVal_replicate_zero_append, digitsVal_natToDigitsRec]
  simp only [Option.getD_some]
  omega

/-! ### The generator's maximum (claim C4) -/

theorem le_foldl_max : ∀ (l : List Int) (a : Int), a ≤ l.foldl max a
  | [], a => le_refl a
  | x :: l, a => le_trans (le_max_left a x) (le_foldl_max l (max a x))

theorem foldl_max_append_singleton (l : List Int) (a x : Int) :
    (l ++ [x]).foldl max a = max (l.foldl max a) x := by
  rw [List.foldl_append]
  rfl

theorem maxNumOf_nonneg (pfx : Str) (ts : List Task) : 0 ≤ maxNumOf pfx ts :=
  le_foldl_max _ 0

theorem maxNumOf_append (pfx : Str) (ts : List Task) (t : Task)
    (h : strStartsWith t.id pfx = true) :
    maxNumOf pfx (ts ++ [t]) = max (maxNumOf pfx ts) (suffixValue pfx t) := by
  rw [maxNumOf, List.filter_append]
  have hft : List.filter (fun t => strStartsWith t.id pfx) [t] = [t] := by
    simp [List.filter, h]
  rw [hft, List.map_append, List.map_singleton, foldl_max_append_singleton]
  rfl

/-- Claim C4 (confirmed).  Create with an empty title is a usage error with
no mutation and no save; with a non-empty title it appends exactly one task
whose id is `prefix-` followed by the `1 + max(existing suffixes, 0)` value
zero-padded to 3 digits, with the documented default fields and a save; and
the next suffix after a create is strictly larger than the one just used, so
N sequential creates yield strictly increasing suffixes with no reuse. -/
theorem claim_C4 (config : Config) (clock : Clock) (data : SprintData)
    (args : List Str) :
    (joinSpace args = [] →
      cmdAdd config clock data args =
        .error ("Usage: sprint add \x22Task title\x22".toList)) ∧
    (joinSpace args ≠ [] →
      ∃ t, cmdAdd config clock data args =
          .ok (saveData clock.nowIso { data with tasks := data.tasks ++ [t] }) ∧
        t.id = mkTaskId (taskPrefixOf config)
          (nextSuffix (taskPrefixOf config) data.tasks) ∧
        t.title = joinSpace args ∧ t.status = ("backlog".toList) ∧
        t.priority = ("medium".toList) ∧ t.type = ("feature".toList) ∧
        t.points = 0 ∧ t.sprint = data.currentSprint ∧
        t.createdAt = clock.today ∧ t.completedAt = none ∧
        t.githubIssue = none) ∧
    (joinSpace args ≠ [] → ∀ d', cmdAdd config clock data args = .ok d' →
      nextSuffix (taskPrefixOf config) data.tasks <
        nextSuffix (taskPrefixOf config) d'.tasks) := by
  refine ⟨?_, ?_, ?_⟩
  · intro h
    rw [cmdAdd, if_pos (by simp [h])]
  · intro h
    rw [cmdAdd, if_neg (by simp [h])]
    exact ⟨_, rfl, rfl, rfl, rfl, rfl, rfl, rfl, rfl, rfl, rfl, rfl⟩
  · intro h d' hok
    rw [cmdAdd, if_neg (by simp [h])] at hok
    have hd' := (Except.ok.inj hok).symm
    have htasks : d'.tasks = data.tasks ++
        [newTaskOf clock data.currentSprint
          (mkTaskId (taskPrefixOf config) (nextSuffix (taskPrefixOf config) data.tasks))
          (joinSpace args)] := by
      rw [hd']
      rfl
    set pfx := taskPrefixOf config with hpfx
    set m := maxNumOf pfx data.tasks with hm
    have hstarts : strStartsWith
        (newTaskOf clock data.currentSprint (mkTaskId pfx (nextSuffix pfx data.tasks))
          (joinSpace args)).id pfx = true := by
      show strStartsWith (mkTaskId pfx (nextSuffix pfx data.tasks)) pfx = true
      rw [mkTaskId]
      have : pfx ++ '-' :: padStart (intToString (nextSuffix pfx data.tasks)) 3 '0' =
          pfx ++ ('-' :: padStart (intToString (nextSuffix pfx data.tasks)) 3 '0') := rfl
      rw [this]
      exact strStartsWith_append pfx _
    have hsuffix : suffixValue pfx
        (newTaskOf clock data.currentSprint (mkTaskId pfx (nextSuffix pfx data.tasks))
          (joinSpace args)) = m + 1 := by
      show jsParseIntOrZero (replaceFirst (pfx ++ ['-']) []
        (mkTaskId pfx (nextSuffix pfx data.tasks))) = m + 1
      rw [parse_mkTaskId pfx _ (by rw [nextSuffix, ← hm]; have := maxNumOf_nonneg pfx data.tasks; omega)]
      rw [nextSuffix]
    rw [nextSuffix, nextSuffix, htasks, maxNumOf_append _ _ _ hstarts, hsuffix, ← hm]
    have hmax : max m (m + 1) = m + 1 := max_eq_right (by omega)
    rw [hmax]
    omega

/-- Witness for C4: an empty argument list is rejected with the usage
error (and a concrete generator step: after `TASK-007`, the next suffix
is 8). -/
theorem claim_C4_witness :
    cmdAdd ⟨none, none⟩ ⟨("2026-02-02".toList), ("T1".toList)⟩
      { project := [], version := none, currentSprint := ("1".toList),
        sprintStart := [], sprintEnd := [], capacity := ⟨80, 64, 16⟩,
        tasks := [], technicalDebt := [], lastUpdated := [] } [] =
      .error ("Usage: sprint add \x22Task title\x22".toList) ∧
    nextSuffix ("TASK".toList)
      [{ id := ("TASK-007".toList), title := [], type := [], status := [],
         priority := [], points := 0, sprint := [], owner := none, branch := none,
         worktree := none, notes := none, linkedTD := none, acceptanceCriteria := [],
         blockers := [], createdAt := [], completedAt := none, githubIssue := none,
         githubUrl := none }] = 8 :=
  ⟨(claim_C4 ⟨none, none⟩ ⟨("2026-02-02".toList), ("T1".toList)⟩
      { project := [], version := none, currentSprint := ("1".toList),
        sprintStart := [], sprintEnd := [], capacity := ⟨80, 64, 16⟩,
        tasks := [], technicalDebt := [], lastUpdated := [] } []).1 rfl,
   by decide⟩

/-! ### Pull-loop lemmas and claims C2, C7 -/

theorem pullLoop_length (env : GhEnv) (today : Str) :
    ∀ ts : List Task, (pullLoop env today ts).1.length = ts.length
  | [] => rfl
  | t :: ts => by
    rw [pullLoop]
    simp [pullLoop_length env today ts]

theorem pullLoop_get? (env : GhEnv) (today : Str) :
    ∀ (ts : List Task) (i : Nat) (t : Task), ts.get? i = some t →
      (pullLoop env today ts).1.get? i = some (pullStep env today t).1 := by
  intro ts
  induction ts with
  | nil => intro i t h; simp at h
  | cons u ts ih =>
    intro i t h
    cases i with
    | zero =>
      simp only [List.get?_cons_zero, Option.some.injEq] at h
      subst h
      rfl
    | succ i =>
      simp only [List.get?_cons_succ] at h
      rw [pullLoop]
      simpa using ih i t h

theorem pullLoop_mem_updated (env : GhEnv) (today : Str) :
    ∀ (ts : List Task) (t : Task), t ∈ ts → ∀ e : UpdatedEntry,
      (pullStep env today t).2.1 = some e → e ∈ (pullLoop env today ts).2.1 := by
  intro ts
  induction ts with
  | nil => intro t h; simp at h
  | cons u ts ih =>
    intro t h e he
    rw [pullLoop]
    rcases List.mem_cons.mp h with rfl | h
    · simp [he]
    · exact List.mem_append_right _ (ih t h e he)

theorem pullLoop_mem_warn (env : GhEnv) (today : Str) :
    ∀ (ts : List Task) (t : Task), t ∈ ts → ∀ w : PullWarn,
      (pullStep env today t).2.2 = some w → w ∈ (pullLoop env today ts).2.2 := by
  intro ts
  induction ts with
  | nil => intro t h; simp at h
  | cons u ts ih =>
    intro t h w hw
    rw [pullLoop]
    rcases List.mem_cons.mp h with rfl | h
    · simp [hw]
    · exact List.mem_append_right _ (ih t h w hw)

theorem pullFromGitHub_ok_elim {env : GhEnv} {today : Str} {data : SprintData}
    {res : List Task × PullResults × List PullWarn}
    (h : pullFromGitHub env today data = .ok res) :
    res = ((pullLoop env today data.tasks).1,
      ⟨(pullLoop env today data.tasks).2.1, []⟩,
      (pullLoop env today data.tasks).2.2) := by
  unfold pullFromGitHub at h
  split at h
  · exact absurd h (by simp)
  · cases hri : env.repoInfo with
    | none => rw [hri] at h; exact absurd h (by simp)
    | some ri => rw [hri] at h; exact (Except.ok.inj h).symm

/-- The pull-loop body on a linked task whose issue is closed while the
local task is not done. -/
theorem pullStep_closed_not_done (env : GhEnv) (today : Str) (t : Task)
    (n : Int) (st : IssueView)
    (hlink : t.githubIssue = some n) (hst : env.issueState n = some st)
    (hclosed : st.state = ("CLOSED".toList)) (hdone : t.status ≠ ("done".toList)) :
    pullStep env today t =
      ({ t with status := ("done".toList), completedAt := some today },
       some ⟨t.id, ("marked done".toList)⟩, none) := by
  have h1 : (st.state == ("CLOSED".toList)) = true := beq_iff_eq.mpr hclosed
  have h2 : (t.status == ("done".toList)) = false := by
    simpa using hdone
  simp only [pullStep, hlink, hst, h1, h2]
  rfl

/-- The pull-loop body on a linked task whose issue is open while the local
task is done: warn only. -/
theorem pullStep_open_done (env : GhEnv) (today : Str) (t : Task)
    (n : Int) (st : IssueView)
    (hlink : t.githubIssue = some n) (hst : env.issueState n = some st)
    (hopen : st.state ≠ ("CLOSED".toList)) (hdone : t.status = ("done".toList)) :
    pullStep env today t = (t, none, some ⟨t.id, n⟩) := by
  have h1 : (st.state == ("CLOSED".toList)) = false := by
    simpa using hopen
  have h2 : (t.status == ("done".toList)) = true := beq_iff_eq.mpr hdone
  simp only [pullStep, hlink, hst, h1, h2]
  rfl

/-- Claim C2 (amended).  During Pull, a linked task whose issue is closed
while the local status is not `done` gets status `done`, `completedAt`
*unconditionally overwritten* with today's date (the code has no unset
guard, unlike Move), and a "marked done" update entry; a linked task whose
issue is open while the local status is `done` is left unchanged and only a
warning is emitted, with no update entry. -/
theorem claim_C2_amended (env : GhEnv) (today : Str) :
    (∀ (t : Task) (n : Int) (st : IssueView),
      t.githubIssue = some n → env.issueState n = some st →
      st.state = ("CLOSED".toList) → t.status ≠ ("done".toList) →
      pullStep env today t =
        ({ t with status := ("done".toList), completedAt := some today },
         some ⟨t.id, ("marked done".toList)⟩, none)) ∧
    (∀ (t : Task) (n : Int) (st : IssueView),
      t.githubIssue = some n → env.issueState n = some st →
      st.state ≠ ("CLOSED".toList) → t.status = ("done".toList) →
      pullStep env today t = (t, none, some ⟨t.id, n⟩)) ∧
    (∀ (ts : List Task) (i : Nat) (t : Task), ts.get? i = some t →
      (pullLoop env today ts).1.get? i = some (pullStep env today t).1) ∧
    (∀ (ts : List Task) (t : Task), t ∈ ts → ∀ e : UpdatedEntry,
      (pullStep env today t).2.1 = some e → e ∈ (pullLoop env today ts).2.1) ∧
    (∀ (ts : List Task) (t : Task), t ∈ ts → ∀ w : PullWarn,
      (pullStep env today t).2.2 = some w → w ∈ (pullLoop env today ts).2.2) ∧
    (∀ (data : SprintData) (res : List Task × PullResults × List PullWarn),
      pullFromGitHub env today data = .ok res →
      res = ((pullLoop env today data.tasks).1,
        ⟨(pullLoop env today data.tasks).2.1, []⟩,
        (pullLoop env today data.tasks).2.2)) :=
  ⟨fun t n st => pullStep_closed_not_done env today t n st,
   fun t n st => pullStep_open_done env today t n st,
   pullLoop_get? env today,
   pullLoop_mem_updated env today,
   pullLoop_mem_warn env today,
   fun _ _ h => pullFromGitHub_ok_elim h⟩

/-- A pull environment whose issue 7 reads back as closed. -/
def envClosed7 : GhEnv :=
  { ghPresent := true, repoInfo := some ⟨("o".toList), ("r".toList)⟩,
    issueState := fun n => if n == 7 then some ⟨("CLOSED".toList), []⟩ else none,
    createIssue := fun _ => .error [] }

/-- An in-progress task linked to issue 7, with `completedAt` already set. -/
def taskStamped : Task :=
  { id := ("TASK-001".toList), title := ("t".toList), type := ("feature".toList),
    status := ("in_progress".toList), priority := ("medium".toList), points := 2,
    sprint := ("1".toList), owner := none, branch := none, worktree := none,
    notes := none, linkedTD := none, acceptanceCriteria := [], blockers := [],
    createdAt := ("2026-01-01".toList), completedAt := some ("2026-01-10".toList),
    githubIssue := some 7, githubUrl := none }

def pullDocStamped : SprintData :=
  { project := ("p".toList), version := none, currentSprint := ("1".toList),
    sprintStart := [], sprintEnd := [], capacity := ⟨80, 64, 16⟩,
    tasks := [taskStamped], technicalDebt := [], lastUpdated := [] }

/-- Claim C2, as stated, is false on the code: Pull overwrites an
already-set `completedAt`.  `taskStamped` has `completedAt = 2026-01-10`;
after pulling a closed issue state, its `completedAt` is today
(2026-02-02), not the previously set date. -/
theorem claim_C2_counterexample :
    taskStamped.completedAt = some ("2026-01-10".toList) ∧
    taskStamped.status = ("in_progress".toList) ∧
    envClosed7.issueState 7 = some ⟨("CLOSED".toList), []⟩ ∧
    pullFromGitHub envClosed7 ("2026-02-02".toList) pullDocStamped =
      .ok ([{ taskStamped with
              status := ("done".toList),
              completedAt := some ("2026-02-02".toList) }],
        ⟨[⟨taskStamped.id, ("marked done".toList)⟩], []⟩, []) :=
  ⟨rfl, rfl, rfl, rfl⟩

/-- Witness for the amended C2 at the concrete closed-issue document. -/
theorem claim_C2_witness :
    pullStep envClosed7 ("2026-02-02".toList) taskStamped =
      ({ taskStamped with
         status := ("done".toList),
         completedAt := some ("2026-02-02".toList) },
       some ⟨taskStamped.id, ("marked done".toList)⟩, none) :=
  (claim_C2_amended envClosed7 ("2026-02-02".toList)).1 taskStamped 7
    ⟨("CLOSED".toList), []⟩ rfl rfl rfl (by decide)

/-- Claim C7 (amended).  During Pull, a linked task whose issue-state fetch
fails is skipped without mutation but also *without* an error entry (the
returned errors list is always empty: `getIssueStatus` catches internally
and returns null, so the loop's catch never fires); the batch continues
with the remaining tasks, and unlinked tasks are skipped with neither an
update nor an error entry. -/
theorem claim_C7_amended (env : GhEnv) (today : Str) :
    (∀ t : Task, t.githubIssue = none → pullStep env today t = (t, none, none)) ∧
    (∀ (t : Task) (n : Int), t.githubIssue = some n → env.issueState n = none →
      pullStep env today t = (t, none, none)) ∧
    (∀ ts : List Task, (pullLoop env today ts).1.length = ts.length) ∧
    (∀ (ts : List Task) (i : Nat) (t : Task), ts.get? i = some t →
      (pullLoop env today ts).1.get? i = some (pullStep env today t).1) ∧
    (∀ (data : SprintData) (res : List Task × PullResults × List PullWarn),
      pullFromGitHub env today data = .ok res → res.2.1.errors = []) := by
  refine ⟨?_, ?_, pullLoop_length env today, pullLoop_get? env today, ?_⟩
  · intro t h
    simp only [pullStep, h]
  · intro t n hlink hst
    simp only [pullStep, hlink, hst]
  · intro data res h
    rw [pullFromGitHub_ok_elim h]

/-- A pull environment in which every issue-state fetch fails. -/
def envFetchFail : GhEnv :=
  { ghPresent := true, repoInfo := some ⟨("o".toList), ("r".toList)⟩,
    issueState := fun _ => none,
    createIssue := fun _ => .error [] }

def pullDocLinked : SprintData :=
  { project := ("p".toList), version := none, currentSprint := ("1".toList),
    sprintStart := [], sprintEnd := [], capacity := ⟨80, 64, 16⟩,
    tasks := [taskStamped], technicalDebt := [], lastUpdated := [] }

/-- Claim C7, as stated, is false on the code: a linked task whose
issue-state fetch fails produces *no* entry in the returned errors list —
the result of pulling `pullDocLinked` under an always-failing fetch has an
empty errors list, where the claim requires one error entry for
`TASK-001`. -/
theorem claim_C7_counterexample :
    pullDocLinked.tasks = [taskStamped] ∧
    taskStamped.githubIssue = some 7 ∧
    envFetchFail.issueState 7 = none ∧
    pullFromGitHub envFetchFail ("2026-02-02".toList) pullDocLinked =
      .ok ([taskStamped], ⟨[], []⟩, []) :=
  ⟨rfl, rfl, rfl, rfl⟩

/-- Witness for the amended C7 at the concrete failing-fetch document. -/
theorem claim_C7_witness :
    pullStep envFetchFail ("2026-02-02".toList) taskStamped =
      (taskStamped, none, none) :=
  (claim_C7_amended envFetchFail ("2026-02-02".toList)).2.1 taskStamped 7 rfl rfl

/-! ### Push fault isolation (claim C3) -/

/-- A failing `createIssue` on an unlinked task is caught: the task is left
unmutated and exactly one error entry is contributed. -/
theorem pushStep_create_error (env : GhEnv) (t : Task) (msg : Str)
    (hlink : t.githubIssue = none) (hcreate : env.createIssue t = .error msg) :
    pushStep env t = (t, .err ⟨t.id, msg⟩) := by
  simp only [pushStep, hlink, hcreate]

/-- A successful `createIssue` on an unlinked task stores the issue
number/URL on the task and contributes one created entry. -/
theorem pushStep_create_ok (env : GhEnv) (t : Task) (issue : IssueRef)
    (hlink : t.githubIssue = none) (hcreate : env.createIssue t = .ok issue) :
    pushStep env t =
      ({ t with githubIssue := some issue.number, githubUrl := some issue.url },
       .created ⟨t.id, issue.number, issue.url⟩) := by
  simp only [pushStep, hlink, hcreate]

/-- Claim C3 (confirmed).  A single-task failure during push is caught and
recorded as exactly one error entry for that task id, and the remaining
tasks of the subset are still processed in list order: over three unlinked
tasks where exactly the second one's issue creation fails, the results hold
one error entry and the two created entries of the others, order
preserved. -/
theorem claim_C3 (env : GhEnv) :
    (∀ (t : Task) (msg : Str), t.githubIssue = none →
      env.createIssue t = .error msg → pushStep env t = (t, .err ⟨t.id, msg⟩)) ∧
    (∀ (filt : Task → Bool) (t1 t2 t3 : Task) (r1 r3 : IssueRef) (msg : Str),
      filt t1 = true → filt t2 = true → filt t3 = true →
      t1.githubIssue = none → t2.githubIssue = none → t3.githubIssue = none →
      env.createIssue t1 = .ok r1 → env.createIssue t2 = .error msg →
      env.createIssue t3 = .ok r3 →
      pushLoop env filt [t1, t2, t3] =
        ([{ t1 with githubIssue := some r1.number, githubUrl := some r1.url },
          t2,
          { t3 with githubIssue := some r3.number, githubUrl := some r3.url }],
         ⟨[⟨t1.id, r1.number, r1.url⟩, ⟨t3.id, r3.number, r3.url⟩], [],
          [⟨t2.id, msg⟩]⟩)) ∧
    (∀ (data : SprintData) (opts : PushOptions) (ri : RepoInfo),
      env.ghPresent = true → env.repoInfo = some ri →
      syncToGitHub env data opts =
        .ok (pushLoop env (pushFilter opts data.currentSprint) data.tasks)) := by
  refine ⟨pushStep_create_error env, ?_, ?_⟩
  · intro filt t1 t2 t3 r1 r3 msg hf1 hf2 hf3 hl1 hl2 hl3 hc1 hc2 hc3
    have s1 := pushStep_create_ok env t1 r1 hl1 hc1
    have s2 := pushStep_create_error env t2 msg hl2 hc2
    have s3 := pushStep_create_ok env t3 r3 hl3 hc3
    simp [pushLoop, hf1, hf2, hf3, s1, s2, s3, applyDelta]
  · intro data opts ri hgh hri
    rw [syncToGitHub, hgh, hri]
    rfl

/-- Three unlinked tasks; issue creation fails exactly for id `B`. -/
def taskA : Task :=
  { id := ("A".toList), title := ("a".toList), type := ("feature".toList),
    status := ("backlog".toList), priority := ("medium".toList), points := 0,
    sprint := ("1".toList), owner := none, branch := none, worktree := none,
    notes := none, linkedTD := none, acceptanceCriteria := [], blockers := [],
    createdAt := [], completedAt := none, githubIssue := none, githubUrl := none }

def taskB : Task := { taskA with id := ("B".toList) }

def taskC : Task := { taskA with id := ("C".toList) }

def envFailB : GhEnv :=
  { ghPresent := true, repoInfo := some ⟨("o".toList), ("r".toList)⟩,
    issueState := fun _ => none,
    createIssue := fun t =>
      if t.id == ("B".toList) then .error ("boom".toList)
      else .ok ⟨("u".toList), 101⟩ }

def pushDoc3 : SprintData :=
  { project := ("p".toList), version := none, currentSprint := ("1".toList),
    sprintStart := [], sprintEnd := [], capacity := ⟨80, 64, 16⟩,
    tasks := [taskA, taskB, taskC], technicalDebt := [], lastUpdated := [] }

/-- Witness for C3: pushing the three concrete tasks where only the second
fails yields exactly one error entry and the create entries of the other
two, in order. -/
theorem claim_C3_witness :
    syncToGitHub envFailB pushDoc3 ⟨false, none⟩ =
      .ok ([{ taskA with githubIssue := some 101, githubUrl := some ("u".toList) },
            taskB,
            { taskC with githubIssue := some 101, githubUrl := some ("u".toList) }],
        ⟨[⟨taskA.id, 101, ("u".toList)⟩, ⟨taskC.id, 101, ("u".toList)⟩], [],
         [⟨taskB.id, ("boom".toList)⟩]⟩) := by
  have h3 := (claim_C3 envFailB).2.2 pushDoc3 ⟨false, none⟩
    ⟨("o".toList), ("r".toList)⟩ rfl rfl
  rw [h3]
  have h2 := (claim_C3 envFailB).2.1
    (pushFilter ⟨false, none⟩ pushDoc3.currentSprint) taskA taskB taskC
    ⟨("u".toList), 101⟩ ⟨("u".toList), 101⟩ ("boom".toList)
    rfl rfl rfl rfl rfl rfl rfl rfl rfl
  rw [show pushDoc3.tasks = [taskA, taskB, taskC] from rfl] at *
  rw [h2]

/-! ### The gh-CLI presence check (claim C8) -/

/-- An environment in which the GitHub CLI is absent (`checkGhCli()` is
false) and no repo can be resolved. -/
def envNoGh : GhEnv :=
  { ghPresent := false, repoInfo := none,
    issueState := fun _ => none, createIssue := fun _ => .error [] }

/-- Claim C8, as stated, is false on the code: the `link` command performs
no GitHub-CLI presence check.  With the client absent, linking `TASK-001`
to issue 5 still mutates the document, saves it, and exits 0. -/
theorem claim_C8_counterexample :
    envNoGh.ghPresent = false ∧
    runLink envNoGh ⟨("2026-02-02".toList), ("T1".toList)⟩ pullDocStamped
      [("link".toList), ("TASK-001".toList), ("5".toList)] =
      ⟨0, saveData ("T1".toList)
        { pullDocStamped with
          tasks := [{ taskStamped with githubIssue := some 5 }] }, true⟩ :=
  ⟨rfl, rfl⟩

/-- Claim C8 (amended): `push` and `pull` check the GitHub CLI before doing
anything and exit non-zero without mutation or save when it is absent;
`link` performs no such check — its behavior is independent of the
client's presence (a failing repo-info lookup merely omits the URL). -/
theorem claim_C8_amended :
    (∀ (env : GhEnv) (clock : Clock) (data : SprintData) (args : List Str),
      env.ghPresent = false → runPush env clock data args = ⟨1, data, false⟩) ∧
    (∀ (env : GhEnv) (clock : Clock) (data : SprintData),
      env.ghPresent = false → runPull env clock data = ⟨1, data, false⟩) ∧
    (∀ (gp : Bool) (ri : Option RepoInfo) (istate : Int → Option IssueView)
        (ci : Task → Except Str IssueRef) (clock : Clock) (data : SprintData)
        (args : List Str),
      runLink ⟨gp, ri, istate, ci⟩ clock data args =
        runLink ⟨true, ri, istate, ci⟩ clock data args) := by
  refine ⟨?_, ?_, ?_⟩
  · intro env clock data args h
    rw [runPush, h]
    rfl
  · intro env clock data h
    rw [runPull, h]
    rfl
  · intro gp ri istate ci clock data args
    rfl

/-- Witness for the amended C8: with the client absent, push and pull exit
1 without saving. -/
theorem claim_C8_witness :
    runPush envNoGh ⟨("2026-02-02".toList), ("T1".toList)⟩ pullDocStamped
      [("push".toList)] = ⟨1, pullDocStamped, false⟩ ∧
    runPull envNoGh ⟨("2026-02-02".toList), ("T1".toList)⟩ pullDocStamped =
      ⟨1, pullDocStamped, false⟩ :=
  ⟨claim_C8_amended.1 envNoGh ⟨("2026-02-02".toList), ("T1".toList)⟩
      pullDocStamped [("push".toList)] rfl,
   claim_C8_amended.2.1 envNoGh ⟨("2026-02-02".toList), ("T1".toList)⟩
      pullDocStamped rfl⟩

end SprintTracker
